import Mathlib

/-!
Shallow embedding of the skill-matching / learning-plan engine
(`src/backend/skill_matcher.py`, `src/backend/learning_recommender.py`,
`src/backend/gpt_resource_generator.py`, `src/backend/models.py`).

Conventions:
* Python `Dict[str, int]` skill maps are embedded as insertion-ordered
  association lists (CPython dicts preserve insertion order).
* Python `float` arithmetic is embedded as exact `ℚ` arithmetic; the
  program only adds, multiplies, divides and compares small ratios.
* Python `int` is embedded as `ℤ` (unbounded), digit-string parses as `ℕ`.
* Python string operations are embedded as structurally recursive
  functions over `List Char` (the `.data` of a `String`), so that they
  evaluate inside the kernel; all the strings the engine manipulates are
  ASCII, where these agree with CPython's `str` methods.
-/

namespace AMatch

/-! ### String helpers (ASCII embeddings of the Python `str` methods used) -/

/-- Does `pat` occur at the head of `l`? (helper for Python's `in`/`split`). -/
def leadsWith : List Char → List Char → Bool
  | _, [] => true
  | [], _ :: _ => false
  | c :: cs, d :: ds => c == d && leadsWith cs ds

/-- Does `pat` occur (as a contiguous run) anywhere in `l`? -/
def containsSeq (pat : List Char) : List Char → Bool
  | [] => leadsWith [] pat
  | c :: cs => leadsWith (c :: cs) pat || containsSeq pat cs

/-- Python substring test `pat in s`. -/
def strContains (s pat : String) : Bool := containsSeq pat.data s.data

/-- The part of `l` before the first occurrence of `pat` (`s.split(pat)[0]`);
all of `l` when `pat` does not occur. -/
def beforeSeq (pat : List Char) : List Char → List Char
  | [] => []
  | c :: cs => if leadsWith (c :: cs) pat then [] else c :: beforeSeq pat cs

/-- Python `s.split(pat)[0]`, for non-empty `pat`. -/
def strBefore (s pat : String) : String := String.mk (beforeSeq pat.data s.data)

/-- Python `s.lower()` (ASCII). -/
def lowerStr (s : String) : String := String.mk (s.data.map Char.toLower)

/-- Python `s.strip()` (the engine only strips ASCII whitespace). -/
def stripStr (s : String) : String :=
  String.mk (((s.data.dropWhile Char.isWhitespace).reverse.dropWhile Char.isWhitespace).reverse)

/-- Python `s.startswith(p)`. -/
def startsWithStr (s p : String) : Bool := leadsWith s.data p.data

/-- Python `s[n:]` for a character count `n` (the strings sliced are ASCII). -/
def dropStr (s : String) : Nat → String := fun n => String.mk (s.data.drop n)

/-- Python `len(s)` for ASCII strings. -/
def strLen (s : String) : Nat := s.data.length

/-- Split `l` at every occurrence of the character `sep` (Python
`s.split(sep)` for a one-character separator). -/
def splitChar (sep : Char) : List Char → List (List Char)
  | [] => [[]]
  | c :: cs =>
    if c = sep then [] :: splitChar sep cs
    else
      match splitChar sep cs with
      | [] => [[c]]
      | h :: t => (c :: h) :: t

/-- Python `s.split('\n')`. -/
def splitLinesStr (s : String) : List String := (splitChar '\n' s.data).map String.mk

/-- Python `s.replace(old, new)` for one-character `old`/`new`, the only
form the engine uses. -/
def replaceChar (s : String) (old new : Char) : String :=
  String.mk (s.data.map (fun c => if c = old then new else c))

/-- Python `str.title()` restricted to space-separated ASCII words, which is
how the generator applies it. -/
def titleStr (s : String) : String :=
  String.intercalate " "
    (((splitChar ' ' s.data).map
        (fun w =>
          match w with
          | [] => []
          | c :: cs => c.toUpper :: cs.map Char.toLower)).map String.mk)

/-- The digit characters of `l`, in order (`filter(str.isdigit, l)`). -/
def digitChars (l : List Char) : List Char := l.filter Char.isDigit

/-- Base-10 value of a digit-character list. -/
def digitsVal (l : List Char) : Nat := l.foldl (fun n c => n * 10 + (c.toNat - 48)) 0

/-- `int(''.join(filter(str.isdigit, s)))`: `none` embeds the `ValueError`
raised when no digit occurs in `s`. -/
def parseJoinedDigits (s : String) : Option Nat :=
  match digitChars s.data with
  | [] => none
  | l => some (digitsVal l)

/-! ### Data model (`models.py`) -/

/-- Skill map: insertion-ordered association list embedding `Dict[str, int]`. -/
abbrev SkillMap := List (String × Int)

/-- `d.get(k, 0)` on a skill map. -/
def smGet (m : SkillMap) (k : String) : Int := (m.lookup k).getD 0

/-- Python `k in d` membership test on a skill map. -/
def containsKey (m : SkillMap) (k : String) : Bool := m.any (fun sl => sl.1 == k)

/-- `models.SkillGap`. -/
structure SkillGap where
  skill_name : String
  current_level : Int
  required_level : Int
  gap : Int
  priority : String
deriving DecidableEq

/-- `models.Position` (the fields the engine reads). -/
structure Position where
  id : String
  title : String
  department : String := ""
  level : String := ""
  required_skills : SkillMap := []
  preferred_skills : SkillMap := []
  description : String := ""
  is_open : Bool := true
deriving DecidableEq

/-- `models.LearningResource` (`rating` is the only float field; it is
embedded as `ℚ`). -/
structure LearningResource where
  id : String := ""
  title : String := ""
  type : String := ""
  provider : String := ""
  duration : String := ""
  skills : List String := []
  level : String := ""
  url : String := ""
  description : String := ""
  rating : Option ℚ := none
  price : Option String := none
  is_internal : Bool := true
deriving DecidableEq

/-- `models.PositionMatch`. -/
structure PositionMatch where
  position : Position
  match_score : ℚ
  missing_skills : SkillMap
  skill_gaps : List SkillGap
  recommendation : String
deriving DecidableEq

/-! ### Sorting (Python `list.sort(key=..., reverse=True)`) -/

/-- Python `xs.sort(key=key, reverse=True)`: a stable sort into
non-increasing key order. -/
def sortDescBy {α β : Type} [LinearOrder β] (key : α → β) (l : List α) : List α :=
  List.insertionSort (fun a b => key b ≤ key a) l

theorem sortDescBy_perm {α β : Type} [LinearOrder β] (key : α → β) (l : List α) :
    List.Perm (sortDescBy key l) l :=
  List.perm_insertionSort _ l

theorem sortDescBy_sorted {α β : Type} [LinearOrder β] (key : α → β) (l : List α) :
    (sortDescBy key l).Pairwise (fun a b => key b ≤ key a) := by
  haveI : IsTotal α (fun a b => key b ≤ key a) := ⟨fun a b => le_total (key b) (key a)⟩
  haveI : IsTrans α (fun a b => key b ≤ key a) := ⟨fun _ _ _ hab hbc => le_trans hbc hab⟩
  exact List.sorted_insertionSort _ l

/-! ### `skill_matcher.py` : `SkillMatcher` -/

/-- The priority assignment in the loop body of `calculate_skill_gap`
(`gap >= 3` → high, `elif gap >= 2` → medium, else low). -/
def gapPriority (gap : Int) : String :=
  if 3 ≤ gap then "high" else if 2 ≤ gap then "medium" else "low"

/-- The `priority_order = {"high": 3, "medium": 2, "low": 1}` table used as
a sort key (only ever applied to the three priority strings). -/
def priorityWeight (p : String) : Int :=
  if p == "high" then 3 else if p == "medium" then 2 else 1

/-- The `SkillGap(...)` record built in `calculate_skill_gap` for a required
skill `s` at level `r`. -/
def mkGap (current : SkillMap) (s : String) (r : Int) : SkillGap :=
  { skill_name := s
    current_level := smGet current s
    required_level := r
    gap := r - smGet current s
    priority := gapPriority (r - smGet current s) }

/-- Sort key of `calculate_skill_gap`: `(x.gap, priority_order[x.priority])`,
compared lexicographically. -/
def gapKey (g : SkillGap) : Lex (Int × Int) := toLex (g.gap, priorityWeight g.priority)

/-- `SkillMatcher.calculate_skill_gap`. -/
def calculate_skill_gap (current_skills required_skills : SkillMap) : List SkillGap :=
  sortDescBy gapKey
    (required_skills.filterMap fun sl =>
      if 0 < sl.2 - smGet current_skills sl.1 then some (mkGap current_skills sl.1 sl.2)
      else none)

/-- The required-skill loop of `calculate_position_match_score`:
`total_score` after the loop. -/
def requiredScore (employee_skills req : SkillMap) : Int :=
  (req.map fun sl =>
    if sl.2 ≤ smGet employee_skills sl.1 then sl.2 else smGet employee_skills sl.1).sum

/-- `max_possible_score` after the required-skill loop. -/
def requiredMax (req : SkillMap) : Int := (req.map (fun sl => sl.2)).sum

/-- `bonus_score` after the preferred-skill loop. -/
def bonusScore (employee_skills pref : SkillMap) : ℚ :=
  (pref.map fun sl =>
    (if sl.2 ≤ smGet employee_skills sl.1 then (sl.2 : ℚ) else (smGet employee_skills sl.1 : ℚ))
      * (1 / 2)).sum

/-- `max_bonus` after the preferred-skill loop. -/
def bonusMax (pref : SkillMap) : ℚ := (pref.map (fun sl => (sl.2 : ℚ) * (1 / 2))).sum

/-- `SkillMatcher.calculate_position_match_score`. -/
def calculate_position_match_score (employee_skills : SkillMap) (position : Position) : ℚ :=
  if position.required_skills = [] then 0
  else
    let total_score := requiredScore employee_skills position.required_skills
    let max_possible_score := requiredMax position.required_skills
    let bonus_score := bonusScore employee_skills position.preferred_skills
    let max_bonus := bonusMax position.preferred_skills
    if 0 < max_possible_score then
      let base_score : ℚ := (total_score : ℚ) / (max_possible_score : ℚ)
      if 0 < max_bonus then min (base_score + (bonus_score / max_bonus) * (2 / 10)) 1
      else base_score
    else 0

/-- The `missing_skills` dict built in `find_position_matches`
(required skills whose key is absent from the employee's skill map). -/
def missingSkills (employee_skills : SkillMap) (position : Position) : SkillMap :=
  position.required_skills.filter (fun sl => !containsKey employee_skills sl.1)

/-- `SkillMatcher._generate_position_recommendation`. -/
def generate_position_recommendation (match_score : ℚ) (skill_gaps : List SkillGap)
    (missing_skills : SkillMap) : String :=
  let base :=
    if 9 / 10 ≤ match_score then "Excellent match! You meet most requirements."
    else if 8 / 10 ≤ match_score then "Very good match with minor skill gaps."
    else if 7 / 10 ≤ match_score then "Good match. Some skill development needed."
    else "Partial match. Significant upskilling required."
  let withGaps :=
    if skill_gaps.isEmpty then base
    else
      let high_priority_gaps := skill_gaps.filter (fun g => g.priority == "high")
      if high_priority_gaps.isEmpty then base
      else
        base ++ " Focus on developing: " ++
          String.intercalate ", " ((high_priority_gaps.take 3).map (fun g => g.skill_name)) ++ "."
  if missing_skills.isEmpty then withGaps
  else if missing_skills.length ≤ 2 then
    withGaps ++ " Consider learning: " ++
      String.intercalate ", " (missing_skills.map (fun sl => sl.1)) ++ "."
  else withGaps ++ " " ++ toString missing_skills.length ++ " new skills needed for this role."

/-- `SkillMatcher.find_position_matches`, parameterized by the position list
the data manager returns and by the configured `SKILL_MATCH_THRESHOLD`
(default 0.7) and `RECOMMENDATION_COUNT` (default 5). -/
def find_position_matches (employee_skills : SkillMap) (positions_to_check : List Position)
    (threshold : ℚ) (recommendation_count : Nat) : List PositionMatch :=
  let kept := positions_to_check.filterMap fun position =>
    let match_score := calculate_position_match_score employee_skills position
    if threshold ≤ match_score then
      let skill_gaps := calculate_skill_gap employee_skills position.required_skills
      let missing := missingSkills employee_skills position
      some { position := position
             match_score := match_score
             missing_skills := missing
             skill_gaps := skill_gaps
             recommendation := generate_position_recommendation match_score skill_gaps missing }
    else none
  (sortDescBy (fun m => m.match_score) kept).take recommendation_count

/-- `DataManager.get_position_by_id`, over a flat catalog list. -/
def get_position_by_id (positions : List Position) (position_id : String) : Option Position :=
  positions.find? (fun p => p.id == position_id)

/-- Python `int()` truncation toward zero, on a rational. -/
def pyInt (q : ℚ) : ℤ := if 0 ≤ q then ⌊q⌋ else ⌈q⌉

/-- `SkillMatcher._get_next_steps`. -/
def get_next_steps (priority_gaps : List SkillGap) : List String :=
  priority_gaps.map fun g =>
    if g.current_level = 0 then "Start learning " ++ g.skill_name ++ " basics"
    else
      "Advance " ++ g.skill_name ++ " from level " ++ toString g.current_level ++
        " to " ++ toString g.required_level

/-- The `recommendations` list assembled by `analyze_career_progression`. -/
def progressionRecommendations (skill_gaps : List SkillGap) : List String :=
  if skill_gaps.isEmpty then []
  else
    let high := skill_gaps.filter (fun g => g.priority == "high")
    let med := skill_gaps.filter (fun g => g.priority == "medium")
    (if high.isEmpty then []
     else ["Immediately focus on: " ++
       String.intercalate ", " ((high.take 3).map (fun g => g.skill_name))]) ++
    (if med.isEmpty then []
     else ["Next, develop: " ++
       String.intercalate ", " ((med.take 3).map (fun g => g.skill_name))])

/-- The dict returned by `SkillMatcher.analyze_career_progression`. -/
structure ProgressionReport where
  target_position : Position
  current_match_score : ℚ
  skill_gaps : List SkillGap
  estimated_development_time : String
  recommendations : List String
  next_steps : List String
deriving DecidableEq

/-- `SkillMatcher.analyze_career_progression`, parameterized by the
position catalog behind `DataManager.get_position_by_id`. -/
def analyze_career_progression (positions : List Position) (employee_skills : SkillMap)
    (target_position_id : String) : Option ProgressionReport :=
  match get_position_by_id positions target_position_id with
  | none => none
  | some target =>
    let skill_gaps := calculate_skill_gap employee_skills target.required_skills
    let total_months : ℚ := (skill_gaps.map (fun g => (g.gap : ℚ) * (3 / 2))).sum
    some { target_position := target
           current_match_score := calculate_position_match_score employee_skills target
           skill_gaps := skill_gaps
           estimated_development_time := toString (pyInt total_months) ++ " months"
           recommendations := progressionRecommendations skill_gaps
           next_steps := get_next_steps (skill_gaps.take 3) }

/-! ### `learning_recommender.py` : `LearningRecommender` -/

/-- The per-resource branch of `LearningRecommender._calculate_estimated_duration`:
hours extracted from one free-text duration string.  Note the source joins
*all* digit characters before the unit keyword (`''.join(filter(str.isdigit,
...))`), so `"6-8 weeks"` parses as 68 weeks. -/
def resourceHours (duration : String) : Nat :=
  let d := lowerStr duration
  if strContains d "hour" then
    match parseJoinedDigits (strBefore d "hour") with
    | some h => h
    | none => 10
  else if strContains d "month" then
    match parseJoinedDigits (strBefore d "month") with
    | some m => m * 40
    | none => 40
  else if strContains d "week" then
    match parseJoinedDigits (strBefore d "week") with
    | some w => w * 10
    | none => 20
  else 10

/-- `LearningRecommender._calculate_estimated_duration`. -/
def calculate_estimated_duration (resources : List LearningResource) : String :=
  let total_hours := (resources.map (fun r => resourceHours r.duration)).sum
  if total_hours < 40 then toString total_hours ++ " hours"
  else if total_hours < 160 then toString (total_hours / 10) ++ " weeks"
  else toString (total_hours / 40) ++ " months"

/-- The `role_skill_mapping` table of `_infer_skills_from_role_name`
(insertion order preserved: the first matching key wins). -/
def role_skill_mapping : List (String × List String) :=
  [("data analyst", ["python", "sql", "data_analysis", "statistics"]),
   ("software developer", ["python", "javascript", "sql", "problem_solving"]),
   ("project manager", ["project_management", "leadership", "communication", "agile"]),
   ("machine learning engineer", ["python", "machine_learning", "statistics", "data_analysis"]),
   ("full stack developer", ["javascript", "react", "nodejs", "sql"]),
   ("product manager", ["business_analysis", "project_management", "communication", "agile"]),
   ("data scientist", ["python", "machine_learning", "statistics", "data_analysis"]),
   ("frontend developer", ["javascript", "react", "web_development"]),
   ("backend developer", ["python", "nodejs", "sql", "web_development"])]

/-- The `skill_keywords` table of `_infer_skills_from_role_name`. -/
def skill_keywords : List (String × Int) :=
  [("python", 3), ("javascript", 3), ("sql", 3), ("machine_learning", 4),
   ("data_analysis", 3), ("project_management", 3), ("leadership", 3),
   ("communication", 3), ("agile", 3), ("react", 3), ("nodejs", 3)]

/-- The `required_skills` dict assembled by `_infer_skills_from_role_name`
before gaps are computed. -/
def inferRequiredSkills (role_lower : String) : SkillMap :=
  match role_skill_mapping.find? (fun rs => strContains role_lower rs.1) with
  | some rs => rs.2.map (fun s => (s, (3 : Int)))
  | none =>
    skill_keywords.filter fun kw =>
      strContains role_lower kw.1 || strContains role_lower (replaceChar kw.1 '_' ' ')

/-- `LearningRecommender._infer_skills_from_role_name` (its final
`sorted(..., key=lambda x: x.gap, reverse=True)` sorts by gap only). -/
def infer_skills_from_role_name (role_name : String) (current_skills : SkillMap) :
    List SkillGap :=
  let inferred := (inferRequiredSkills (lowerStr role_name)).filterMap fun sl =>
    let current_level := smGet current_skills sl.1
    if current_level < sl.2 then
      let g := sl.2 - current_level
      some { skill_name := sl.1
             current_level := current_level
             required_level := sl.2
             gap := g
             priority := if 3 ≤ g then "high" else if 2 ≤ g then "medium" else "low" }
    else none
  sortDescBy (fun g => g.gap) inferred

/-- The target-position resolution loop of
`LearningRecommender.generate_learning_plan` (lines 28-37): first position
whose lowercased title equals the lowercased role, or whose id equals the
role exactly. -/
def resolve_target_position (all_positions : List Position) (target_role : String) :
    Option Position :=
  all_positions.find? fun p => lowerStr p.title == lowerStr target_role || p.id == target_role

/-- The gap-basis selection of `generate_learning_plan` (lines 39-47):
the resolved position's `required_skills`, else keyword inference. -/
def plan_skill_gaps (all_positions : List Position) (target_role : String)
    (employee_skills : SkillMap) : List SkillGap :=
  match resolve_target_position all_positions target_role with
  | none => infer_skills_from_role_name target_role employee_skills
  | some target => calculate_skill_gap employee_skills target.required_skills

/-- One entry of the list returned by `get_trending_skills`. -/
structure TrendingEntry where
  skill : String
  demand_count : Nat
  average_level : ℚ
  trend : String
deriving DecidableEq

/-- Round half to even on `ℤ`-valued ties, as CPython's `round` does. -/
def roundHalfEven (q : ℚ) : ℤ :=
  if q - ⌊q⌋ = 1 / 2 then (if ⌊q⌋ % 2 = 0 then ⌊q⌋ else ⌊q⌋ + 1) else round q

/-- Python `round(x, 1)`, embedded on exact rationals with banker's
rounding (the engine's averages are ratios of small integers, where the
float computation realizes this value). -/
def pyRound1 (q : ℚ) : ℚ := (roundHalfEven (q * 10) : ℚ) / 10

/-- One `skill_demand[skill]["count"] / ["total_level"]` update of
`get_trending_skills`: bump the existing entry in place or append a fresh
one, exactly as a CPython dict assignment does. -/
def demandUpdate : List (String × Nat × Int) → String → Int → List (String × Nat × Int)
  | [], skill, level => [(skill, 1, level)]
  | e :: rest, skill, level =>
    if e.1 == skill then (e.1, e.2.1 + 1, e.2.2 + level) :: rest
    else e :: demandUpdate rest skill level

/-- The `skill_demand` dict after the counting loops of `get_trending_skills`. -/
def demandFold (positions : List Position) : List (String × Nat × Int) :=
  positions.foldl
    (fun acc p => p.required_skills.foldl (fun a sl => demandUpdate a sl.1 sl.2) acc) []

/-- The record built for one skill in the second loop of `get_trending_skills`. -/
def trendingEntryOf (e : String × Nat × Int) : TrendingEntry :=
  { skill := e.1
    demand_count := e.2.1
    average_level := pyRound1 ((e.2.2 : ℚ) / (e.2.1 : ℚ))
    trend := if 3 ≤ e.2.1 then "high" else if 2 ≤ e.2.1 then "medium" else "low" }

/-- `LearningRecommender.get_trending_skills`, parameterized by the open
positions the data manager returns. -/
def get_trending_skills (positions : List Position) : List TrendingEntry :=
  let trending := ((demandFold positions).filter (fun e => 0 < e.2.1)).map trendingEntryOf
  (sortDescBy (fun e => toLex ((e.demand_count : Int), e.average_level)) trending).take 10

/-! ### `gpt_resource_generator.py` : `GPTResourceGenerator` -/

/-- Outcome of `_generate_chat_response`'s network loop, abstracting the
remote service: `failure` covers non-200 statuses, timeouts, transport
errors and unexpected exceptions on all 3 attempts (after which the method
raises), `success s` covers a 200 response whose extracted content is `s`
(`""` when the response carried no content, which the method returns
without raising). -/
inductive RemoteOutcome
  | failure
  | success (response : String)
deriving DecidableEq

/-- `GPTResourceGenerator._generate_chat_response`: the raise after 3
failed attempts is embedded as `Except.error`. -/
def generate_chat_response (outcome : RemoteOutcome) : Except String String :=
  match outcome with
  | RemoteOutcome.failure => Except.error "Failed to generate chat response after 3 attempts"
  | RemoteOutcome.success s => Except.ok s

/-- One entry of the `resource_templates` table of `_get_fallback_resources`. -/
structure FallbackTemplate where
  title : String
  provider : String
  type : String
  level : String
  url : String
deriving DecidableEq

/-- The `resource_templates` table of `_get_fallback_resources`. -/
def fallback_resource_templates (skill : String) : List FallbackTemplate :=
  if skill == "python" then
    [{ title := "Python for Everybody Specialization", provider := "Coursera",
       type := "specialization", level := "beginner",
       url := "https://coursera.org/specializations/python" },
     { title := "Complete Python Bootcamp", provider := "Udemy",
       type := "course", level := "intermediate",
       url := "https://udemy.com/complete-python-bootcamp" }]
  else if skill == "javascript" then
    [{ title := "JavaScript: The Complete Guide", provider := "Udemy",
       type := "course", level := "beginner",
       url := "https://udemy.com/javascript-complete-guide" },
     { title := "freeCodeCamp JavaScript Algorithms", provider := "freeCodeCamp",
       type := "tutorial", level := "intermediate",
       url := "https://freecodecamp.org/learn/javascript-algorithms-and-data-structures" }]
  else if skill == "machine_learning" then
    [{ title := "Machine Learning Specialization", provider := "Coursera",
       type := "specialization", level := "intermediate",
       url := "https://coursera.org/specializations/machine-learning-introduction" }]
  else if skill == "project_management" then
    [{ title := "Google Project Management Certificate", provider := "Coursera",
       type := "certification", level := "beginner",
       url := "https://coursera.org/professional-certificates/google-project-management" }]
  else []

/-- The single resource `_get_fallback_resources` appends for one skill gap
(`templates[:1]` keeps one template per skill; otherwise the generic
resource is built). -/
def fallbackResourceFor (gap : SkillGap) (resource_id : Nat) : LearningResource :=
  match (fallback_resource_templates gap.skill_name).head? with
  | some t =>
    { id := "fallback_" ++ toString resource_id
      title := t.title
      type := t.type
      provider := t.provider
      duration := "Variable"
      skills := [gap.skill_name]
      level := t.level
      url := t.url
      description := "Learn " ++ gap.skill_name ++ " with this comprehensive resource"
      rating := some 4
      price := some "Variable"
      is_internal := false }
  | none =>
    { id := "fallback_" ++ toString resource_id
      title := "Learn " ++ titleStr (replaceChar gap.skill_name '_' ' ')
      type := "course"
      provider := "Online Learning Platform"
      duration := "4-6 weeks"
      skills := [gap.skill_name]
      level := if 0 < gap.current_level then "intermediate" else "beginner"
      url := "https://search.google.com/search?q=" ++ replaceChar gap.skill_name '_' '+' ++
        "+online+course"
      description := "Comprehensive " ++ replaceChar gap.skill_name '_' ' ' ++
        " learning resource"
      rating := some 4
      price := some "Variable"
      is_internal := false }

/-- The main loop of `_get_fallback_resources`: one resource per gap,
breaking once `max_resources` resources have been accumulated. -/
def fallbackLoop (max_resources : Nat) :
    List SkillGap → Nat → List LearningResource → List LearningResource
  | [], _, acc => acc
  | gap :: rest, resource_id, acc =>
    let acc2 := acc ++ [fallbackResourceFor gap resource_id]
    if max_resources ≤ acc2.length then acc2
    else fallbackLoop max_resources rest (resource_id + 1) acc2

/-- `GPTResourceGenerator._get_fallback_resources`. -/
def get_fallback_resources (skill_gaps : List SkillGap) (max_resources : Nat) :
    List LearningResource :=
  fallbackLoop max_resources (skill_gaps.take max_resources) 1 []

/-- The `LearningResource(...)` constructor calls inside
`_parse_gpt_response`: they pass only `title`, `description`, `url`,
`resource_type`, `difficulty_level` and `estimated_hours`, so the pydantic
model's required fields `id`, `type`, `provider`, `duration`, `skills` and
`level` are all missing and pydantic raises a `ValidationError` on every
such call; the raise is embedded as `Except.error`. -/
def mkParsedResource (_title _description _url : String) : Except String LearningResource :=
  Except.error "ValidationError: 6 validation errors for LearningResource"

/-- Scanner state of `_parse_gpt_response`'s line loop. -/
structure ParseState where
  resources : List LearningResource
  current_title : String
  current_description : String
  current_url : String

/-- The bullet/numbering markers stripped at the top of the line loop. -/
def bulletMarks : List String := ["1.", "2.", "3.", "4.", "5.", "6.", "7.", "8.", "-", "*", "â€¢"]

/-- The `cleaned_line` computed at the top of the line loop (first matching
marker is stripped, then the remainder is stripped of whitespace). -/
def cleanLine (line : String) : String :=
  match bulletMarks.find? (fun p => startsWithStr line p) with
  | some p => stripStr (dropStr line (strLen p))
  | none => line

/-- Keywords that make a cleaned line count as a resource title. -/
def titleKeywords : List String := ["course", "training", "tutorial", "certification", "bootcamp"]

/-- Platform names scanned for in the URL branch of the line loop. -/
def platformNames : List String := ["coursera", "udemy", "pluralsight", "edx", "linkedin"]

/-- The URL chosen by the platform branch of the line loop. -/
def platformUrl (lowered : String) : String :=
  if strContains lowered "coursera" then "https://www.coursera.org"
  else if strContains lowered "udemy" then "https://www.udemy.com"
  else if strContains lowered "pluralsight" then "https://www.pluralsight.com"
  else if strContains lowered "edx" then "https://www.edx.org"
  else if strContains lowered "linkedin" then "https://www.linkedin.com/learning"
  else ""

/-- The description default used when appending a parsed resource. -/
def parsedDescription (title description : String) : String :=
  if description != "" then description
  else "Learn " ++ (if strContains title ":" then strBefore title ":" else title)

/-- The URL default used when appending a parsed resource. -/
def parsedUrl (url : String) : String := if url != "" then url else "https://www.coursera.org"

/-- One iteration of `_parse_gpt_response`'s line loop.  An `Except.error`
carries the resource list accumulated so far, which is what the method's
own `except Exception` handler returns when the pydantic constructor
raises. -/
def parseStep (st : ParseState) (line : String) : Except (List LearningResource) ParseState :=
  let cleaned := cleanLine line
  if titleKeywords.any (fun k => strContains (lowerStr cleaned) k) then
    if st.current_title != "" && st.resources.length < 8 then
      match mkParsedResource st.current_title
          (parsedDescription st.current_title st.current_description)
          (parsedUrl st.current_url) with
      | Except.error _ => Except.error st.resources
      | Except.ok r => Except.ok ⟨st.resources ++ [r], cleaned, "", ""⟩
    else Except.ok ⟨st.resources, cleaned, "", ""⟩
  else if platformNames.any (fun p => strContains (lowerStr cleaned) p) then
    Except.ok { st with
      current_url := platformUrl (lowerStr cleaned)
      current_description :=
        if st.current_description == "" then cleaned else st.current_description }
  else if cleaned != "" && 20 < strLen cleaned then
    Except.ok { st with
      current_description :=
        if st.current_description == "" then cleaned else st.current_description }
  else Except.ok st

/-- The trailing `if current_title ...` append after the line loop. -/
def parseFinish (st : ParseState) : Except (List LearningResource) (List LearningResource) :=
  if st.current_title != "" && st.resources.length < 8 then
    match mkParsedResource st.current_title
        (parsedDescription st.current_title st.current_description)
        (parsedUrl st.current_url) with
    | Except.error _ => Except.error st.resources
    | Except.ok r => Except.ok (st.resources ++ [r])
  else Except.ok st.resources

/-- `lines = [line.strip() for line in response_text.split('\n') if line.strip()]`. -/
def parseLines (response_text : String) : List String :=
  ((splitLinesStr response_text).map stripStr).filter (fun l => l != "")

/-- `GPTResourceGenerator._parse_gpt_response`: the `except Exception`
handler returns the resources accumulated when the constructor raised. -/
def parse_gpt_response (response_text : String) : List LearningResource :=
  if stripStr response_text == "" then []
  else
    match (parseLines response_text).foldlM parseStep ⟨[], "", "", ""⟩ >>= parseFinish with
    | Except.ok rs => rs
    | Except.error rs => rs

/-- `GPTResourceGenerator.generate_learning_resources`, parameterized by
whether Azure OpenAI is configured (endpoint and key both non-empty) and by
the outcome of the remote call.  The surrounding `try/except` is embedded
by the `match` on `generate_chat_response`; the function's result is
`Except.ok` in every branch — nothing propagates past its boundary. -/
def generate_learning_resources (azure_configured : Bool) (skill_gaps : List SkillGap)
    (max_resources : Nat) (outcome : RemoteOutcome) :
    Except String (List LearningResource) :=
  if !azure_configured then Except.ok (get_fallback_resources skill_gaps max_resources)
  else if skill_gaps.isEmpty then Except.ok (get_fallback_resources skill_gaps max_resources)
  else
    match generate_chat_response outcome with
    | Except.error _ => Except.ok (get_fallback_resources skill_gaps max_resources)
    | Except.ok response_text =>
      if response_text != "" && 50 < strLen (stripStr response_text) then
        let parsed := parse_gpt_response response_text
        if !parsed.isEmpty then Except.ok (parsed.take max_resources)
        else Except.ok (get_fallback_resources skill_gaps max_resources)
      else Except.ok (get_fallback_resources skill_gaps max_resources)

/-! ### Shared lemmas -/

theorem mem_calculate_skill_gap {current required : SkillMap} {g : SkillGap} :
    g ∈ calculate_skill_gap current required ↔
      ∃ sl ∈ required, 0 < sl.2 - smGet current sl.1 ∧ g = mkGap current sl.1 sl.2 := by
  unfold calculate_skill_gap
  rw [(sortDescBy_perm _ _).mem_iff, List.mem_filterMap]
  constructor
  · rintro ⟨sl, hsl, hif⟩
    by_cases h : 0 < sl.2 - smGet current sl.1
    · rw [if_pos h] at hif
      exact ⟨sl, hsl, h, (Option.some_inj.mp hif).symm⟩
    · rw [if_neg h] at hif
      cases hif
  · rintro ⟨sl, hsl, h, rfl⟩
    exact ⟨sl, hsl, if_pos h⟩

theorem calculate_skill_gap_fields {current required : SkillMap} {g : SkillGap}
    (h : g ∈ calculate_skill_gap current required) :
    g.current_level = smGet current g.skill_name ∧
      g.gap = g.required_level - g.current_level ∧ 0 < g.gap ∧
      g.priority = gapPriority g.gap := by
  obtain ⟨sl, _, hpos, rfl⟩ := mem_calculate_skill_gap.mp h
  exact ⟨rfl, rfl, hpos, rfl⟩

theorem eq_of_mem_nodupKeys {l : SkillMap} (h : (l.map Prod.fst).Nodup)
    {a b : String × Int} (ha : a ∈ l) (hb : b ∈ l) (hk : a.1 = b.1) : a = b := by
  induction l with
  | nil => cases ha
  | cons x xs ih =>
    rw [List.map_cons, List.nodup_cons] at h
    rcases List.mem_cons.mp ha with rfl | ha' <;> rcases List.mem_cons.mp hb with rfl | hb'
    · rfl
    · exact absurd (hk ▸ List.mem_map_of_mem Prod.fst hb') h.1
    · exact absurd (hk ▸ List.mem_map_of_mem Prod.fst ha') (by simpa [← hk] using h.1)
    · exact ih h.2 ha' hb'

/-! ### Claim theorems -/

/-- C5 (confirmed): every `SkillGap` emitted by `SkillMatcher.calculate_skill_gap`
has `current_level = current.get(skill, 0)` (0 when absent) and
`gap = required_level - current_level > 0`; a required skill whose current
level meets or exceeds its required level never appears in the result. -/
theorem skill_gap_positive (current required : SkillMap)
    (hnd : (required.map Prod.fst).Nodup) :
    (∀ g ∈ calculate_skill_gap current required,
      g.current_level = smGet current g.skill_name ∧
        g.gap = g.required_level - g.current_level ∧ 0 < g.gap) ∧
    (∀ sl ∈ required, sl.2 ≤ smGet current sl.1 →
      ∀ g ∈ calculate_skill_gap current required, g.skill_name ≠ sl.1) := by
  constructor
  · intro g hg
    obtain ⟨h1, h2, h3, _⟩ := calculate_skill_gap_fields hg
    exact ⟨h1, h2, h3⟩
  · intro sl hsl hmet g hg hname
    obtain ⟨sl', hsl', hpos, rfl⟩ := mem_calculate_skill_gap.mp hg
    have : sl' = sl := eq_of_mem_nodupKeys hnd hsl' hsl hname
    subst this
    omega

/-- C5 witness: the specification instantiated on
`current = {python: 2}`, `required = {python: 4, sql: 3}`. -/
theorem skill_gap_positive_witness :
    (∀ g ∈ calculate_skill_gap [("python", 2)] [("python", 4), ("sql", 3)],
      g.current_level = smGet [("python", 2)] g.skill_name ∧
        g.gap = g.required_level - g.current_level ∧ 0 < g.gap) ∧
    (∀ sl ∈ [("python", (4 : Int)), ("sql", 3)], sl.2 ≤ smGet [("python", 2)] sl.1 →
      ∀ g ∈ calculate_skill_gap [("python", 2)] [("python", 4), ("sql", 3)],
        g.skill_name ≠ sl.1) :=
  skill_gap_positive [("python", 2)] [("python", 4), ("sql", 3)] (by decide)

/-- C6 (confirmed): on `current = {python: 2}`, `required = {python: 4, sql: 3}`
the gap calculator returns `[sql (0→3, gap 3, high), python (2→4, gap 2, medium)]`;
in general each emitted gap's priority is "high" iff `gap ≥ 3`, "medium" iff
`gap = 2`, "low" iff `gap = 1`, and the result is sorted descending by
`(gap, priority weight)`. -/
theorem skill_gap_priorities_order :
    calculate_skill_gap [("python", 2)] [("python", 4), ("sql", 3)] =
      [{ skill_name := "sql", current_level := 0, required_level := 3, gap := 3,
         priority := "high" },
       { skill_name := "python", current_level := 2, required_level := 4, gap := 2,
         priority := "medium" }] ∧
    ∀ current required : SkillMap,
      (∀ g ∈ calculate_skill_gap current required,
        (g.priority = "high" ↔ 3 ≤ g.gap) ∧
          (g.priority = "medium" ↔ g.gap = 2) ∧ (g.priority = "low" ↔ g.gap = 1)) ∧
      (calculate_skill_gap current required).Pairwise
        (fun a b => b.gap < a.gap ∨
          (b.gap = a.gap ∧ priorityWeight b.priority ≤ priorityWeight a.priority)) := by
  refine ⟨by decide, fun current required => ⟨?_, ?_⟩⟩
  · intro g hg
    obtain ⟨_, _, hpos, hpr⟩ := calculate_skill_gap_fields hg
    rw [hpr]
    unfold gapPriority
    rcases (by omega : 3 ≤ g.gap ∨ g.gap = 2 ∨ g.gap = 1) with h | h | h
    · rw [if_pos h]
      exact ⟨⟨fun _ => h, fun _ => rfl⟩,
        ⟨fun hc => absurd hc (by decide), fun hc => by omega⟩,
        ⟨fun hc => absurd hc (by decide), fun hc => by omega⟩⟩
    · rw [if_neg (by omega), if_pos (by omega)]
      exact ⟨⟨fun hc => absurd hc (by decide), fun hc => by omega⟩,
        ⟨fun _ => h, fun _ => rfl⟩,
        ⟨fun hc => absurd hc (by decide), fun hc => by omega⟩⟩
    · rw [if_neg (by omega), if_neg (by omega)]
      exact ⟨⟨fun hc => absurd hc (by decide), fun hc => by omega⟩,
        ⟨fun hc => absurd hc (by decide), fun hc => by omega⟩,
        ⟨fun _ => h, fun _ => rfl⟩⟩
  · unfold calculate_skill_gap
    refine (sortDescBy_sorted gapKey _).imp ?_
    intro a b hab
    rw [gapKey, gapKey, Prod.Lex.le_iff] at hab
    exact hab

/-- C6 witness: the priority/order specification instantiated on
`current = {python: 2}`, `required = {python: 4, sql: 3}`. -/
theorem skill_gap_priorities_order_witness :
    (∀ g ∈ calculate_skill_gap [("python", 2)] [("python", 4), ("sql", 3)],
      (g.priority = "high" ↔ 3 ≤ g.gap) ∧
        (g.priority = "medium" ↔ g.gap = 2) ∧ (g.priority = "low" ↔ g.gap = 1)) ∧
    (calculate_skill_gap [("python", 2)] [("python", 4), ("sql", 3)]).Pairwise
      (fun a b => b.gap < a.gap ∨
        (b.gap = a.gap ∧ priorityWeight b.priority ≤ priorityWeight a.priority)) :=
  skill_gap_priorities_order.2 [("python", 2)] [("python", 4), ("sql", 3)]

/-- C10 (confirmed): when `required_skills` is non-empty but every required
level is 0, `calculate_position_match_score` returns 0.0 — the division is
guarded by the `max_possible_score > 0` check, so the scorer is total. -/
theorem match_score_zero_levels (employee_skills : SkillMap) (position : Position)
    (hne : position.required_skills ≠ [])
    (hzero : ∀ sl ∈ position.required_skills, sl.2 = 0) :
    calculate_position_match_score employee_skills position = 0 := by
  unfold calculate_position_match_score
  rw [if_neg hne]
  have hmax : requiredMax position.required_skills = 0 := by
    unfold requiredMax
    refine List.sum_eq_zero ?_
    intro x hx
    obtain ⟨sl, hsl, rfl⟩ := List.mem_map.mp hx
    exact hzero sl hsl
  simp only [hmax, lt_irrefl, if_false]

/-- C10 witness: the zero-level guard instantiated on a position requiring
`{python: 0}`. -/
theorem match_score_zero_levels_witness :
    calculate_position_match_score []
      { id := "p0", title := "P0", required_skills := [("python", 0)] } = 0 :=
  match_score_zero_levels [] { id := "p0", title := "P0", required_skills := [("python", 0)] }
    (by decide) (by decide)

/-- C1 counterexample: on durations `"6-8 weeks"` and `"3 months"` the
aggregator joins *all* digits before the unit keyword, so `"6-8 weeks"`
parses as 68 weeks = 680 hours (not 6 weeks = 60) and the result is
"20 months", not the claimed "4 months". -/
theorem duration_aggregation_counterexample :
    calculate_estimated_duration [{ duration := "6-8 weeks" }, { duration := "3 months" }] =
      "20 months" ∧
    calculate_estimated_duration [{ duration := "6-8 weeks" }, { duration := "3 months" }] ≠
      "4 months" := by
  constructor <;> decide

/-- C1 (amended): `"6-8 weeks"` parses to 68 weeks × 10 = 680 hours (all
digit characters before the unit keyword are concatenated), `"3 months"` to
3 × 40 = 120 hours; the total 800 is ≥ 160, so the result is
`800 // 40 = 20` formatted as "20 months". -/
theorem duration_aggregation_amended :
    resourceHours "6-8 weeks" = 68 * 10 ∧
    resourceHours "3 months" = 3 * 40 ∧
    ¬ ((680 + 120 : Nat) < 160) ∧
    calculate_estimated_duration [{ duration := "6-8 weeks" }, { duration := "3 months" }] =
      toString ((680 + 120) / 40) ++ " months" := by
  refine ⟨by decide, by decide, by decide, by decide⟩

/-- A catalog position whose id is upper-case, used to exercise the
case-sensitivity of the id comparison in target resolution. -/
def posDataAnalyst : Position := { id := "POS1", title := "Data Analyst" }

/-- C4 counterexample: the target role "pos1" matches the catalog id "POS1"
case-insensitively, yet `generate_learning_plan`'s resolution loop finds no
position (the id comparison `position.id == target_role` is case-sensitive)
and the plan falls back to keyword inference. -/
theorem resolve_target_case_counterexample :
    resolve_target_position [posDataAnalyst] "pos1" = none ∧
    lowerStr posDataAnalyst.id = lowerStr "pos1" ∧
    plan_skill_gaps [posDataAnalyst] "pos1" [] = infer_skills_from_role_name "pos1" [] := by
  refine ⟨by decide, by decide, by decide⟩

/-- C4 (amended): the resolution loop of `generate_learning_plan` succeeds
exactly when some catalog position's title matches the role
case-insensitively or its id matches the role *exactly* (case-sensitively);
the resolved position's `required_skills` are then the gap basis, and only
when no position matches does the plan fall back to keyword inference. -/
theorem resolve_target_resolution (all_positions : List Position) (target_role : String)
    (employee_skills : SkillMap) :
    ((resolve_target_position all_positions target_role).isSome ↔
      ∃ p ∈ all_positions, lowerStr p.title = lowerStr target_role ∨ p.id = target_role) ∧
    (∀ p, resolve_target_position all_positions target_role = some p →
      p ∈ all_positions ∧ (lowerStr p.title = lowerStr target_role ∨ p.id = target_role) ∧
      plan_skill_gaps all_positions target_role employee_skills =
        calculate_skill_gap employee_skills p.required_skills) ∧
    (resolve_target_position all_positions target_role = none →
      plan_skill_gaps all_positions target_role employee_skills =
        infer_skills_from_role_name target_role employee_skills) := by
  refine ⟨?_, ?_, ?_⟩
  · unfold resolve_target_position
    rw [List.find?_isSome]
    constructor
    · rintro ⟨p, hp, hpred⟩
      rw [Bool.or_eq_true, beq_iff_eq, beq_iff_eq] at hpred
      exact ⟨p, hp, hpred⟩
    · rintro ⟨p, hp, hpred⟩
      refine ⟨p, hp, ?_⟩
      rw [Bool.or_eq_true, beq_iff_eq, beq_iff_eq]
      exact hpred
  · intro p hp
    have hmem := List.mem_of_find?_eq_some hp
    have hpred := List.find?_some hp
    rw [Bool.or_eq_true, beq_iff_eq, beq_iff_eq] at hpred
    refine ⟨hmem, hpred, ?_⟩
    unfold plan_skill_gaps
    rw [hp]
  · intro hnone
    unfold plan_skill_gaps
    rw [hnone]

/-- C4 witness: the amended resolution applied to the role "Data Analyst",
which resolves to `posDataAnalyst` by case-insensitive title match. -/
theorem resolve_target_resolution_witness :
    posDataAnalyst ∈ [posDataAnalyst] ∧
    (lowerStr posDataAnalyst.title = lowerStr "Data Analyst" ∨
      posDataAnalyst.id = "Data Analyst") ∧
    plan_skill_gaps [posDataAnalyst] "Data Analyst" [] =
      calculate_skill_gap [] posDataAnalyst.required_skills :=
  (resolve_target_resolution [posDataAnalyst] "Data Analyst" []).2.1 posDataAnalyst (by decide)

/-- Sum of the per-gap month estimates, rewritten over `ℤ`. -/
theorem months_sum_cast (gaps : List SkillGap) :
    (gaps.map (fun g => (g.gap : ℚ) * (3 / 2))).sum =
      ((3 * (gaps.map SkillGap.gap).sum : ℤ) : ℚ) / ((2 : ℕ) : ℚ) := by
  induction gaps with
  | nil => simp
  | cons g gs ih =>
    rw [List.map_cons, List.sum_cons, ih, List.map_cons, List.sum_cons]
    push_cast
    ring

/-- `int(Σ gap * 1.5)` equals the integer division `(3 * Σ gap) // 2` when
every gap is positive. -/
theorem pyInt_months (gaps : List SkillGap) (hpos : ∀ g ∈ gaps, 0 < g.gap) :
    pyInt ((gaps.map (fun g => (g.gap : ℚ) * (3 / 2))).sum) =
      (3 * (gaps.map SkillGap.gap).sum) / 2 := by
  have hsum : (0 : ℤ) ≤ (gaps.map SkillGap.gap).sum := by
    refine List.sum_nonneg ?_
    intro x hx
    obtain ⟨g, hg, rfl⟩ := List.mem_map.mp hx
    exact le_of_lt (hpos g hg)
  rw [months_sum_cast]
  unfold pyInt
  rw [if_pos (by positivity), Rat.floor_intCast_div_natCast]
  norm_num

/-- C3 counterexample: `analyze_career_progression` truncates the month
estimate with `int(...)`, so a single gap of 1 (1 × 1.5 = 1.5 months) is
reported as "1 months", while the claimed `round(1.5)` is 2. -/
theorem development_time_round_counterexample :
    (analyze_career_progression
        [{ id := "pos1", title := "Developer", required_skills := [("python", 1)] }]
        [] "pos1").map (fun r => r.estimated_development_time) = some "1 months" ∧
    round ((1 : ℚ) * (3 / 2)) = 2 := by
  constructor
  · have hfind : get_position_by_id
        [{ id := "pos1", title := "Developer", required_skills := [("python", 1)] }] "pos1" =
        some { id := "pos1", title := "Developer", required_skills := [("python", 1)] } := by
      decide
    have hgaps : calculate_skill_gap []
        (Position.required_skills
          { id := "pos1", title := "Developer", required_skills := [("python", 1)] }) =
        [{ skill_name := "python", current_level := 0, required_level := 1, gap := 1,
           priority := "low" }] := by decide
    unfold analyze_career_progression
    rw [hfind]
    simp only [Option.map_some]
    rw [hgaps]
    have : pyInt ((List.map (fun g : SkillGap => (g.gap : ℚ) * (3 / 2))
        [{ skill_name := "python", current_level := 0, required_level := 1, gap := 1,
           priority := "low" }]).sum) = 1 := by
      simp only [List.map_cons, List.map_nil, List.sum_cons, List.sum_nil]
      unfold pyInt
      rw [if_pos (by norm_num), Int.floor_eq_iff]; norm_num
    rw [this]
    rfl
  · rw [round_eq]
    rw [show (1 : ℚ) * (3 / 2) + 1 / 2 = ((2 : ℤ) : ℚ) by norm_num, Int.floor_intCast]

/-- C3 (amended): the development-time estimate reported by
`analyze_career_progression` is the *truncation* `int(Σ gap * 1.5)`, i.e.
`(3 * Σ gap) // 2` months over the computed gaps — not `round(Σ gap * 1.5)`. -/
theorem development_time_truncation (positions : List Position)
    (employee_skills : SkillMap) (target_position_id : String) :
    (analyze_career_progression positions employee_skills target_position_id).map
        (fun r => r.estimated_development_time) =
      (analyze_career_progression positions employee_skills target_position_id).map
        (fun r => toString ((3 * (r.skill_gaps.map SkillGap.gap).sum) / 2) ++ " months") := by
  unfold analyze_career_progression
  cases hfind : get_position_by_id positions target_position_id with
  | none => rfl
  | some target =>
    simp only [Option.map_some]
    have hpos : ∀ g ∈ calculate_skill_gap employee_skills target.required_skills, 0 < g.gap :=
      fun g hg => (calculate_skill_gap_fields hg).2.2.1
    rw [pyInt_months _ hpos]
    rfl

/-- The fallback loop never shrinks its accumulator. -/
theorem fallbackLoop_length_mono (max_resources : Nat) (gaps : List SkillGap)
    (resource_id : Nat) (acc : List LearningResource) :
    acc.length ≤ (fallbackLoop max_resources gaps resource_id acc).length := by
  induction gaps generalizing resource_id acc with
  | nil => simp [fallbackLoop]
  | cons g rest ih =>
    unfold fallbackLoop
    by_cases h : max_resources ≤ (acc ++ [fallbackResourceFor g resource_id]).length
    · rw [if_pos h]
      simp
    · rw [if_neg h]
      calc acc.length ≤ (acc ++ [fallbackResourceFor g resource_id]).length := by simp
        _ ≤ _ := ih _ _

/-- The fallback generator returns at least one resource whenever it is
given at least one gap and `max_resources ≥ 1`. -/
theorem get_fallback_resources_ne_nil (skill_gaps : List SkillGap) (max_resources : Nat)
    (hgaps : skill_gaps ≠ []) (hmax : 1 ≤ max_resources) :
    get_fallback_resources skill_gaps max_resources ≠ [] := by
  obtain ⟨g, gs, rfl⟩ := List.exists_cons_of_ne_nil hgaps
  cases max_resources with
  | zero => omega
  | succ m =>
    unfold get_fallback_resources
    rw [List.take_succ_cons]
    intro hnil
    have hlen : (1 : Nat) ≤ (fallbackLoop (m + 1) (List.take m gs) (1 + 1)
        ([] ++ [fallbackResourceFor g 1])).length := by
      calc (1 : Nat) = ([] ++ [fallbackResourceFor g 1]).length := by simp
        _ ≤ _ := fallbackLoop_length_mono _ _ _ _
    unfold fallbackLoop at hnil
    by_cases hb : m + 1 ≤ ([] ++ [fallbackResourceFor g 1]).length
    · rw [if_pos hb] at hnil
      simp at hnil
    · rw [if_neg hb] at hnil
      rw [hnil] at hlen
      simp at hlen

/-- A non-empty prefix of a non-empty list. -/
theorem take_ne_nil_of_ne_nil {α : Type} (l : List α) (n : Nat) (hl : l ≠ []) (hn : 1 ≤ n) :
    l.take n ≠ [] := by
  obtain ⟨x, xs, rfl⟩ := List.exists_cons_of_ne_nil hl
  cases n with
  | zero => omega
  | succ m =>
    rw [List.take_succ_cons]
    exact List.cons_ne_nil _ _

/-- C2 counterexample: with the remote model failing on every attempt and an
*empty* skill-gap list, `generate_learning_resources` returns the empty
list — the claimed "non-empty for every (possibly empty) gap list" fails. -/
theorem generate_resources_empty_counterexample :
    generate_learning_resources true [] 5 RemoteOutcome.failure =
      Except.ok ([] : List LearningResource) := rfl

/-- C2 (amended): `generate_learning_resources` never lets a failure past
its boundary (it returns `Except.ok` for every input and remote outcome);
when the remote call fails it returns exactly the deterministic offline
fallback; and the result is non-empty whenever the gap list is non-empty
and `max_resources ≥ 1` — but for an empty gap list the fallback, and hence
the result, is empty. -/
theorem generate_resources_boundary (azure_configured : Bool) (skill_gaps : List SkillGap)
    (max_resources : Nat) (outcome : RemoteOutcome) :
    (∃ rs, generate_learning_resources azure_configured skill_gaps max_resources outcome =
      Except.ok rs) ∧
    (outcome = RemoteOutcome.failure →
      generate_learning_resources azure_configured skill_gaps max_resources outcome =
        Except.ok (get_fallback_resources skill_gaps max_resources)) ∧
    (skill_gaps ≠ [] → 1 ≤ max_resources →
      ∀ rs, generate_learning_resources azure_configured skill_gaps max_resources outcome =
        Except.ok rs → rs ≠ []) := by
  refine ⟨?_, ?_, ?_⟩
  · unfold generate_learning_resources
    split
    · exact ⟨_, rfl⟩
    · split
      · exact ⟨_, rfl⟩
      · cases generate_chat_response outcome with
        | error e => exact ⟨_, rfl⟩
        | ok response_text =>
          simp only
          split
          · split
            · exact ⟨_, rfl⟩
            · exact ⟨_, rfl⟩
          · exact ⟨_, rfl⟩
  · rintro rfl
    unfold generate_learning_resources
    split
    · rfl
    · split
      · rfl
      · rfl
  · intro hgaps hmax rs hrs
    have hfb := get_fallback_resources_ne_nil skill_gaps max_resources hgaps hmax
    unfold generate_learning_resources at hrs
    split at hrs
    · cases hrs
      exact hfb
    · split at hrs
      · cases hrs
        exact hfb
      · cases hchat : generate_chat_response outcome with
        | error e =>
          rw [hchat] at hrs
          cases hrs
          exact hfb
        | ok response_text =>
          rw [hchat] at hrs
          simp only at hrs
          split at hrs
          · split at hrs
            · rename_i hparsed
              cases hrs
              refine take_ne_nil_of_ne_nil _ _ ?_ hmax
              simpa [List.isEmpty_iff] using hparsed
            · cases hrs
              exact hfb
          · cases hrs
            exact hfb

/-- C2 witness: with one gap, `max_resources = 5` and total remote failure,
the generator returns the deterministic fallback, which is non-empty. -/
theorem generate_resources_boundary_witness :
    (generate_learning_resources true
        [{ skill_name := "python", current_level := 0, required_level := 3, gap := 3,
           priority := "high" }] 5 RemoteOutcome.failure =
      Except.ok (get_fallback_resources
        [{ skill_name := "python", current_level := 0, required_level := 3, gap := 3,
           priority := "high" }] 5)) ∧
    get_fallback_resources
        [{ skill_name := "python", current_level := 0, required_level := 3, gap := 3,
           priority := "high" }] 5 ≠ [] := by
  constructor
  · exact (generate_resources_boundary true
      [{ skill_name := "python", current_level := 0, required_level := 3, gap := 3,
         priority := "high" }] 5 RemoteOutcome.failure).2.1 rfl
  · exact get_fallback_resources_ne_nil _ _ (by decide) (by decide)

/-- `d.get(k, 0)` is non-negative when every stored level is. -/
theorem smGet_nonneg {m : SkillMap} (h : ∀ sl ∈ m, 0 ≤ sl.2) (k : String) : 0 ≤ smGet m k := by
  induction m with
  | nil => simp [smGet]
  | cons e rest ih =>
    obtain ⟨a, b⟩ := e
    rw [smGet, List.lookup_cons]
    by_cases hk : (k == a) = true
    · simpa [hk] using h (a, b) (List.mem_cons_self _ _)
    · rw [Bool.not_eq_true] at hk
      rw [hk]
      exact ih fun sl hsl => h sl (List.mem_cons_of_mem _ hsl)

/-- The required-skill loop accumulates `Σ min(current, required)`. -/
theorem requiredScore_eq_min (es req : SkillMap) :
    requiredScore es req = (req.map (fun sl => min (smGet es sl.1) sl.2)).sum := by
  unfold requiredScore
  congr 1
  refine List.map_congr_left ?_
  intro sl _
  by_cases h : sl.2 ≤ smGet es sl.1
  · rw [if_pos h, min_eq_right h]
  · rw [if_neg h, min_eq_left (le_of_not_le h)]

/-- The preferred-skill loop accumulates `Σ min(current, preferred) * 0.5`. -/
theorem bonusScore_eq_min (es pref : SkillMap) :
    bonusScore es pref =
      (pref.map (fun sl => ((min (smGet es sl.1) sl.2 : ℤ) : ℚ) * (1 / 2))).sum := by
  unfold bonusScore
  congr 1
  refine List.map_congr_left ?_
  intro sl _
  by_cases h : sl.2 ≤ smGet es sl.1
  · rw [if_pos h, min_eq_right h]
  · rw [if_neg h, min_eq_left (le_of_not_le h)]

/-- A non-empty requirement map with levels ≥ 1 has a positive level sum. -/
theorem requiredMax_pos {req : SkillMap} (hne : req ≠ [])
    (hreq : ∀ sl ∈ req, 1 ≤ sl.2) : 0 < requiredMax req := by
  unfold requiredMax
  refine List.sum_pos _ ?_ ?_
  · intro x hx
    obtain ⟨sl, hsl, rfl⟩ := List.mem_map.mp hx
    exact lt_of_lt_of_le zero_lt_one (hreq sl hsl)
  · simpa using hne

/-- `max_bonus` is half the preferred-level sum. -/
theorem bonusMax_eq (pref : SkillMap) :
    bonusMax pref = (((pref.map (fun sl => sl.2)).sum : ℤ) : ℚ) / 2 := by
  unfold bonusMax
  induction pref with
  | nil => simp
  | cons e rest ih =>
    rw [List.map_cons, List.sum_cons, ih, List.map_cons, List.sum_cons]
    push_cast
    ring

/-- `max_bonus > 0` exactly when the preferred levels have positive total. -/
theorem bonusMax_pos_iff (pref : SkillMap) :
    0 < bonusMax pref ↔ 0 < (pref.map (fun sl => sl.2)).sum := by
  rw [bonusMax_eq, div_pos_iff]
  constructor
  · rintro (⟨h, _⟩ | ⟨_, h2⟩)
    · exact_mod_cast h
    · norm_num at h2
  · intro h
    exact Or.inl ⟨by exact_mod_cast h, by norm_num⟩

/-- C7 (confirmed): for skill levels in the valid range,
`calculate_position_match_score` is in [0, 1]; it is exactly 0.0 when
`required_skills` is empty, otherwise `base = Σ min(current, required) /
Σ required`, and when the preferred levels have positive total the result
is `min(base + (Σ min(current, preferred)·0.5 / Σ preferred·0.5) · 0.2, 1.0)`,
else `base`. -/
theorem match_score_formula (employee_skills : SkillMap) (position : Position)
    (hemp : ∀ sl ∈ employee_skills, 0 ≤ sl.2 ∧ sl.2 ≤ 5)
    (hreq : ∀ sl ∈ position.required_skills, 1 ≤ sl.2 ∧ sl.2 ≤ 5)
    (hpref : ∀ sl ∈ position.preferred_skills, 1 ≤ sl.2 ∧ sl.2 ≤ 5) :
    (0 ≤ calculate_position_match_score employee_skills position ∧
      calculate_position_match_score employee_skills position ≤ 1) ∧
    (position.required_skills = [] →
      calculate_position_match_score employee_skills position = 0) ∧
    (position.required_skills ≠ [] →
      (((position.preferred_skills.map (fun sl => sl.2)).sum ≤ 0 →
        calculate_position_match_score employee_skills position =
          ((position.required_skills.map
              (fun sl => min (smGet employee_skills sl.1) sl.2)).sum : ℚ) /
            (((position.required_skills.map (fun sl => sl.2)).sum : ℤ) : ℚ)) ∧
      (0 < (position.preferred_skills.map (fun sl => sl.2)).sum →
        calculate_position_match_score employee_skills position =
          min (((position.required_skills.map
                (fun sl => min (smGet employee_skills sl.1) sl.2)).sum : ℚ) /
              (((position.required_skills.map (fun sl => sl.2)).sum : ℤ) : ℚ) +
            ((position.preferred_skills.map
                (fun sl => ((min (smGet employee_skills sl.1) sl.2 : ℤ) : ℚ) * (1 / 2))).sum /
              (position.preferred_skills.map (fun sl => (sl.2 : ℚ) * (1 / 2))).sum) * (2 / 10))
            1))) := by
  have hemp' : ∀ sl ∈ employee_skills, 0 ≤ sl.2 := fun sl h => (hemp sl h).1
  by_cases hne : position.required_skills = []
  · have h0 : calculate_position_match_score employee_skills position = 0 := by
      unfold calculate_position_match_score
      rw [if_pos hne]
    rw [h0]
    exact ⟨⟨le_refl 0, zero_le_one⟩, fun _ => rfl, fun habs => absurd hne habs⟩
  · have hmaxpos : 0 < requiredMax position.required_skills :=
      requiredMax_pos hne (fun sl h => (hreq sl h).1)
    have hscore : calculate_position_match_score employee_skills position =
        if 0 < bonusMax position.preferred_skills then
          min (((requiredScore employee_skills position.required_skills : ℤ) : ℚ) /
              ((requiredMax position.required_skills : ℤ) : ℚ) +
            (bonusScore employee_skills position.preferred_skills /
              bonusMax position.preferred_skills) * (2 / 10)) 1
        else
          ((requiredScore employee_skills position.required_skills : ℤ) : ℚ) /
            ((requiredMax position.required_skills : ℤ) : ℚ) := by
      simp only [calculate_position_match_score]
      rw [if_neg hne, if_pos hmaxpos]
    have hnum0 : (0 : ℤ) ≤ requiredScore employee_skills position.required_skills := by
      rw [requiredScore_eq_min]
      refine List.sum_nonneg ?_
      intro x hx
      obtain ⟨sl, hsl, rfl⟩ := List.mem_map.mp hx
      exact le_min (smGet_nonneg hemp' sl.1) (le_trans zero_le_one (hreq sl hsl).1)
    have hnumle : requiredScore employee_skills position.required_skills ≤
        requiredMax position.required_skills := by
      rw [requiredScore_eq_min]
      unfold requiredMax
      exact List.sum_le_sum fun sl _ => min_le_right _ _
    have hbase0 : (0 : ℚ) ≤
        ((requiredScore employee_skills position.required_skills : ℤ) : ℚ) /
          ((requiredMax position.required_skills : ℤ) : ℚ) :=
      div_nonneg (by exact_mod_cast hnum0) (by exact_mod_cast le_of_lt hmaxpos)
    have hbase1 : ((requiredScore employee_skills position.required_skills : ℤ) : ℚ) /
        ((requiredMax position.required_skills : ℤ) : ℚ) ≤ 1 := by
      rw [div_le_one (by exact_mod_cast hmaxpos)]
      exact_mod_cast hnumle
    have hbon0 : (0 : ℚ) ≤ bonusScore employee_skills position.preferred_skills := by
      rw [bonusScore_eq_min]
      refine List.sum_nonneg ?_
      intro x hx
      obtain ⟨sl, hsl, rfl⟩ := List.mem_map.mp hx
      refine mul_nonneg ?_ (by norm_num)
      have : (0 : ℤ) ≤ min (smGet employee_skills sl.1) sl.2 :=
        le_min (smGet_nonneg hemp' sl.1) (le_trans zero_le_one (hpref sl hsl).1)
      exact_mod_cast this
    have hbonle : bonusScore employee_skills position.preferred_skills ≤
        bonusMax position.preferred_skills := by
      rw [bonusScore_eq_min]
      unfold bonusMax
      refine List.sum_le_sum ?_
      intro sl _
      refine mul_le_mul_of_nonneg_right ?_ (by norm_num)
      have : min (smGet employee_skills sl.1) sl.2 ≤ sl.2 := min_le_right _ _
      exact_mod_cast this
    refine ⟨?_, fun habs => absurd habs hne, fun _ => ⟨?_, ?_⟩⟩
    · rw [hscore]
      by_cases hb : 0 < bonusMax position.preferred_skills
      · rw [if_pos hb]
        constructor
        · refine le_min ?_ zero_le_one
          refine add_nonneg hbase0 (mul_nonneg (div_nonneg hbon0 (le_of_lt hb)) (by norm_num))
        · exact min_le_right _ _
      · rw [if_neg hb]
        exact ⟨hbase0, hbase1⟩
    · intro hple
      have hb : ¬ 0 < bonusMax position.preferred_skills := by
        rw [bonusMax_pos_iff]
        omega
      rw [hscore, if_neg hb, requiredScore_eq_min]
      rfl
    · intro hppos
      have hb : 0 < bonusMax position.preferred_skills := (bonusMax_pos_iff _).mpr hppos
      rw [hscore, if_pos hb, requiredScore_eq_min, bonusScore_eq_min]
      rfl

/-- C7 witness: the score bounds instantiated on spec Example 2
(`required = {python: 4}`, `preferred = {sql: 2}`,
employee `{python: 4, sql: 2}`). -/
theorem match_score_formula_witness :
    0 ≤ calculate_position_match_score [("python", 4), ("sql", 2)]
        { id := "ex2", title := "Ex2", required_skills := [("python", 4)],
          preferred_skills := [("sql", 2)] } ∧
    calculate_position_match_score [("python", 4), ("sql", 2)]
        { id := "ex2", title := "Ex2", required_skills := [("python", 4)],
          preferred_skills := [("sql", 2)] } ≤ 1 :=
  (match_score_formula [("python", 4), ("sql", 2)]
    { id := "ex2", title := "Ex2", required_skills := [("python", 4)],
      preferred_skills := [("sql", 2)] }
    (by decide) (by decide) (by decide)).1

/-- C8 (confirmed): the match finder keeps only positions scoring at least
the configured threshold (storing the scorer's value for that position),
returns them sorted non-increasingly by score, and truncates to the
configured top-n count. -/
theorem find_matches_ranking (employee_skills : SkillMap)
    (positions_to_check : List Position) (threshold : ℚ) (recommendation_count : Nat) :
    (∀ m ∈ find_position_matches employee_skills positions_to_check threshold
        recommendation_count,
      threshold ≤ m.match_score ∧
        m.match_score = calculate_position_match_score employee_skills m.position ∧
        m.position ∈ positions_to_check) ∧
    (find_position_matches employee_skills positions_to_check threshold
        recommendation_count).Pairwise (fun a b => b.match_score ≤ a.match_score) ∧
    (find_position_matches employee_skills positions_to_check threshold
        recommendation_count).length ≤ recommendation_count := by
  unfold find_position_matches
  refine ⟨?_, ?_, ?_⟩
  · intro m hm
    have hm' := (sortDescBy_perm _ _).mem_iff.mp (List.mem_of_mem_take hm)
    obtain ⟨p, hp, hif⟩ := List.mem_filterMap.mp hm'
    by_cases hth : threshold ≤ calculate_position_match_score employee_skills p
    · rw [if_pos hth] at hif
      cases Option.some_inj.mp hif
      exact ⟨hth, rfl, hp⟩
    · rw [if_neg hth] at hif
      cases hif
  · exact List.Pairwise.sublist (List.take_sublist _ _) (sortDescBy_sorted _ _)
  · rw [List.length_take]
    exact min_le_left _ _

/-- C8 witness: the ranking specification instantiated on a one-position
catalog at the default threshold 0.7 and top-5 count. -/
theorem find_matches_ranking_witness :
    (∀ m ∈ find_position_matches [("python", 3)] [posDataAnalyst] (7 / 10) 5,
      (7 : ℚ) / 10 ≤ m.match_score ∧
        m.match_score = calculate_position_match_score [("python", 3)] m.position ∧
        m.position ∈ [posDataAnalyst]) ∧
    (find_position_matches [("python", 3)] [posDataAnalyst] (7 / 10) 5).Pairwise
      (fun a b => b.match_score ≤ a.match_score) ∧
    (find_position_matches [("python", 3)] [posDataAnalyst] (7 / 10) 5).length ≤ 5 :=
  find_matches_ranking [("python", 3)] [posDataAnalyst] (7 / 10) 5

/-! ### Demand-dictionary bookkeeping for `get_trending_skills` -/

/-- Total count recorded for skill `s` in an accumulator. -/
def entryCount (acc : List (String × Nat × Int)) (s : String) : Nat :=
  ((acc.filter (fun e => e.1 == s)).map (fun e => e.2.1)).sum

/-- Total level recorded for skill `s` in an accumulator. -/
def entryTotal (acc : List (String × Nat × Int)) (s : String) : Int :=
  ((acc.filter (fun e => e.1 == s)).map (fun e => e.2.2)).sum

/-- Occurrences of key `s` in a skill-map pair list. -/
def kCount (ps : List (String × Int)) (s : String) : Nat :=
  (ps.filter (fun sl => sl.1 == s)).length

/-- Level total of key `s` in a skill-map pair list. -/
def kTotal (ps : List (String × Int)) (s : String) : Int :=
  ((ps.filter (fun sl => sl.1 == s)).map (fun sl => sl.2)).sum

/-- All required-skill pairs across the catalog, in iteration order. -/
def flatReq (positions : List Position) : List (String × Int) :=
  (positions.map (fun p => p.required_skills)).flatten

/-- Number of positions whose `required_skills` contains `s`. -/
def positionsRequiring (positions : List Position) (s : String) : Nat :=
  (positions.filter (fun p => containsKey p.required_skills s)).length

/-- Total required level accumulated for `s` across the catalog. -/
def totalRequiredLevel (positions : List Position) (s : String) : Int :=
  (positions.map (fun p => kTotal p.required_skills s)).sum

theorem entryCount_cons (e : String × Nat × Int) (acc : List (String × Nat × Int))
    (s : String) :
    entryCount (e :: acc) s = (if e.1 == s then e.2.1 else 0) + entryCount acc s := by
  unfold entryCount
  rw [List.filter_cons]
  by_cases h : (e.1 == s) = true
  · rw [if_pos h, if_pos h, List.map_cons, List.sum_cons]
  · rw [if_neg h, if_neg h]
    simp

theorem entryTotal_cons (e : String × Nat × Int) (acc : List (String × Nat × Int))
    (s : String) :
    entryTotal (e :: acc) s = (if e.1 == s then e.2.2 else 0) + entryTotal acc s := by
  unfold entryTotal
  rw [List.filter_cons]
  by_cases h : (e.1 == s) = true
  · rw [if_pos h, if_pos h, List.map_cons, List.sum_cons]
  · rw [if_neg h, if_neg h]
    simp

theorem entryCount_demandUpdate (acc : List (String × Nat × Int)) (k : String) (v : Int)
    (s : String) :
    entryCount (demandUpdate acc k v) s = entryCount acc s + (if s = k then 1 else 0) := by
  induction acc with
  | nil =>
    by_cases h : s = k
    · subst h
      simp [demandUpdate, entryCount]
    · have h' : (k == s) = false := beq_eq_false_iff_ne.mpr (Ne.symm h)
      simp [demandUpdate, entryCount, h', h]
  | cons e rest ih =>
    simp only [demandUpdate]
    by_cases hek : (e.1 == k) = true
    · rw [if_pos hek, entryCount_cons, entryCount_cons]
      by_cases hes : (e.1 == s) = true
      · have hsk : s = k := by
          rw [beq_iff_eq] at hek hes
          rw [← hes, hek]
        rw [if_pos hes, if_pos hes, if_pos hsk]
        dsimp only
        omega
      · have hsk : ¬ s = k := by
          intro hskeq
          apply hes
          rw [beq_iff_eq] at hek ⊢
          rw [hek, ← hskeq]
        rw [if_neg hes, if_neg hes, if_neg hsk]
        omega
    · rw [if_neg hek, entryCount_cons, entryCount_cons, ih]
      omega

theorem entryTotal_demandUpdate (acc : List (String × Nat × Int)) (k : String) (v : Int)
    (s : String) :
    entryTotal (demandUpdate acc k v) s = entryTotal acc s + (if s = k then v else 0) := by
  induction acc with
  | nil =>
    by_cases h : s = k
    · subst h
      simp [demandUpdate, entryTotal]
    · have h' : (k == s) = false := beq_eq_false_iff_ne.mpr (Ne.symm h)
      simp [demandUpdate, entryTotal, h', h]
  | cons e rest ih =>
    simp only [demandUpdate]
    by_cases hek : (e.1 == k) = true
    · rw [if_pos hek, entryTotal_cons, entryTotal_cons]
      by_cases hes : (e.1 == s) = true
      · have hsk : s = k := by
          rw [beq_iff_eq] at hek hes
          rw [← hes, hek]
        rw [if_pos hes, if_pos hes, if_pos hsk]
        dsimp only
        omega
      · have hsk : ¬ s = k := by
          intro hskeq
          apply hes
          rw [beq_iff_eq] at hek ⊢
          rw [hek, ← hskeq]
        rw [if_neg hes, if_neg hes, if_neg hsk]
        omega
    · rw [if_neg hek, entryTotal_cons, entryTotal_cons, ih]
      omega

theorem kCount_cons (q : String × Int) (ps : List (String × Int)) (s : String) :
    kCount (q :: ps) s = (if s = q.1 then 1 else 0) + kCount ps s := by
  unfold kCount
  rw [List.filter_cons]
  by_cases h : s = q.1
  · rw [if_pos (by rw [beq_iff_eq]; exact h.symm), if_pos h, List.length_cons]
    omega
  · rw [if_neg (by rw [beq_iff_eq]; exact fun hh => h hh.symm), if_neg h]
    omega

theorem kTotal_cons (q : String × Int) (ps : List (String × Int)) (s : String) :
    kTotal (q :: ps) s = (if s = q.1 then q.2 else 0) + kTotal ps s := by
  unfold kTotal
  rw [List.filter_cons]
  by_cases h : s = q.1
  · rw [if_pos (by rw [beq_iff_eq]; exact h.symm), if_pos h, List.map_cons, List.sum_cons]
  · rw [if_neg (by rw [beq_iff_eq]; exact fun hh => h hh.symm), if_neg h]
    omega

theorem entryCount_foldl (ps : List (String × Int)) (acc : List (String × Nat × Int))
    (s : String) :
    entryCount (ps.foldl (fun a sl => demandUpdate a sl.1 sl.2) acc) s =
      entryCount acc s + kCount ps s := by
  induction ps generalizing acc with
  | nil => simp [kCount]
  | cons q rest ih =>
    rw [List.foldl_cons, ih, entryCount_demandUpdate, kCount_cons]
    omega

theorem entryTotal_foldl (ps : List (String × Int)) (acc : List (String × Nat × Int))
    (s : String) :
    entryTotal (ps.foldl (fun a sl => demandUpdate a sl.1 sl.2) acc) s =
      entryTotal acc s + kTotal ps s := by
  induction ps generalizing acc with
  | nil => simp [kTotal]
  | cons q rest ih =>
    rw [List.foldl_cons, ih, entryTotal_demandUpdate, kTotal_cons]
    omega

theorem demandUpdate_keys (acc : List (String × Nat × Int)) (k : String) (v : Int) :
    (demandUpdate acc k v).map (fun e => e.1) =
      if acc.any (fun e => e.1 == k) then acc.map (fun e => e.1)
      else acc.map (fun e => e.1) ++ [k] := by
  induction acc with
  | nil => simp [demandUpdate]
  | cons e rest ih =>
    simp only [demandUpdate, List.any_cons]
    by_cases hek : (e.1 == k) = true
    · rw [if_pos hek]
      simp [hek]
    · rw [if_neg hek]
      rw [List.map_cons, ih]
      rw [Bool.not_eq_true] at hek
      by_cases h2 : rest.any (fun e => e.1 == k) = true
      · rw [if_pos h2, if_pos (by rw [hek, h2]; rfl), List.map_cons]
      · rw [if_neg h2, if_neg (by rw [hek, Bool.false_or]; exact h2), List.map_cons,
          List.cons_append]

theorem demandUpdate_nodupKeys {acc : List (String × Nat × Int)}
    (h : (acc.map (fun e => e.1)).Nodup) (k : String) (v : Int) :
    ((demandUpdate acc k v).map (fun e => e.1)).Nodup := by
  rw [demandUpdate_keys]
  by_cases hc : acc.any (fun e => e.1 == k) = true
  · rw [if_pos hc]
    exact h
  · rw [if_neg hc]
    rw [List.nodup_append]
    refine ⟨h, List.nodup_singleton k, ?_⟩
    intro a ha hb
    rw [List.mem_singleton] at hb
    subst hb
    obtain ⟨e, he, hk⟩ := List.mem_map.mp ha
    apply hc
    rw [List.any_eq_true]
    exact ⟨e, he, by rw [beq_iff_eq]; exact hk⟩

theorem foldl_demandUpdate_nodupKeys (ps : List (String × Int))
    (acc : List (String × Nat × Int)) (h : (acc.map (fun e => e.1)).Nodup) :
    (((ps.foldl (fun a sl => demandUpdate a sl.1 sl.2) acc)).map (fun e => e.1)).Nodup := by
  induction ps generalizing acc with
  | nil => exact h
  | cons q rest ih => exact ih _ (demandUpdate_nodupKeys h _ _)

theorem filter_key_of_mem {acc : List (String × Nat × Int)}
    (h : (acc.map (fun e => e.1)).Nodup) {e : String × Nat × Int} (he : e ∈ acc) :
    acc.filter (fun x => x.1 == e.1) = [e] := by
  induction acc with
  | nil => cases he
  | cons a rest ih =>
    rw [List.map_cons, List.nodup_cons] at h
    rcases List.mem_cons.mp he with rfl | he'
    · rw [List.filter_cons, if_pos (by rw [beq_iff_eq])]
      have hrest : rest.filter (fun x => x.1 == e.1) = [] := by
        rw [List.filter_eq_nil_iff]
        intro x hx hxe
        rw [beq_iff_eq] at hxe
        exact h.1 (hxe ▸ List.mem_map_of_mem (fun e => e.1) hx)
      rw [hrest]
    · have hne : ¬ (a.1 == e.1) = true := by
        intro hae
        rw [beq_iff_eq] at hae
        exact h.1 (hae ▸ List.mem_map_of_mem (fun e => e.1) he')
      rw [List.filter_cons, if_neg hne]
      exact ih h.2 he'

theorem demandFold_eq_flat (positions : List Position) :
    demandFold positions =
      (flatReq positions).foldl (fun a sl => demandUpdate a sl.1 sl.2) [] := by
  suffices h : ∀ acc,
      positions.foldl
        (fun acc p => p.required_skills.foldl (fun a sl => demandUpdate a sl.1 sl.2) acc) acc =
      (flatReq positions).foldl (fun a sl => demandUpdate a sl.1 sl.2) acc from h []
  induction positions with
  | nil => intro acc; rfl
  | cons p rest ih =>
    intro acc
    rw [List.foldl_cons, ih]
    show _ = ((p.required_skills ++ flatReq rest).foldl _ acc)
    rw [List.foldl_append]

theorem demandFold_entry {positions : List Position} {e : String × Nat × Int}
    (he : e ∈ demandFold positions) :
    e.2.1 = kCount (flatReq positions) e.1 ∧ e.2.2 = kTotal (flatReq positions) e.1 := by
  have hnodup : ((demandFold positions).map (fun e => e.1)).Nodup := by
    rw [demandFold_eq_flat]
    exact foldl_demandUpdate_nodupKeys _ [] (by simp)
  have hfilter := filter_key_of_mem hnodup he
  constructor
  · have h1 : entryCount (demandFold positions) e.1 = e.2.1 := by
      unfold entryCount
      rw [hfilter, List.map_cons, List.map_nil, List.sum_cons, List.sum_nil]
      omega
    rw [← h1, demandFold_eq_flat, entryCount_foldl]
    simp [entryCount]
  · have h1 : entryTotal (demandFold positions) e.1 = e.2.2 := by
      unfold entryTotal
      rw [hfilter, List.map_cons, List.map_nil, List.sum_cons, List.sum_nil]
      omega
    rw [← h1, demandFold_eq_flat, entryTotal_foldl]
    simp [entryTotal]

theorem kCount_append (ps qs : List (String × Int)) (s : String) :
    kCount (ps ++ qs) s = kCount ps s + kCount qs s := by
  unfold kCount
  rw [List.filter_append, List.length_append]

theorem kTotal_append (ps qs : List (String × Int)) (s : String) :
    kTotal (ps ++ qs) s = kTotal ps s + kTotal qs s := by
  unfold kTotal
  rw [List.filter_append, List.map_append, List.sum_append]

theorem kCount_eq_containsKey {req : SkillMap} (h : (req.map Prod.fst).Nodup) (s : String) :
    kCount req s = if containsKey req s then 1 else 0 := by
  induction req with
  | nil => simp [kCount, containsKey]
  | cons e rest ih =>
    rw [List.map_cons, List.nodup_cons] at h
    rw [kCount_cons, ih h.2]
    unfold containsKey
    rw [List.any_cons]
    by_cases hes : s = e.1
    · have he : (e.1 == s) = true := by rw [beq_iff_eq]; exact hes.symm
      have hrest : (rest.any fun sl => sl.1 == s) = false := by
        rw [Bool.eq_false_iff]
        intro hany
        obtain ⟨x, hx, hxs⟩ := List.any_eq_true.mp hany
        rw [beq_iff_eq] at hxs
        exact h.1 ((hxs.trans hes).symm ▸ List.mem_map_of_mem Prod.fst hx)
      rw [if_pos hes, he, Bool.true_or, hrest]
      simp
    · have he : (e.1 == s) = false := beq_eq_false_iff_ne.mpr (fun hh => hes hh.symm)
      rw [if_neg hes, he, Bool.false_or]
      omega

theorem kCount_flat {positions : List Position}
    (hnd : ∀ p ∈ positions, (p.required_skills.map Prod.fst).Nodup) (s : String) :
    kCount (flatReq positions) s = positionsRequiring positions s := by
  induction positions with
  | nil => rfl
  | cons p rest ih =>
    have hstep : flatReq (p :: rest) = p.required_skills ++ flatReq rest := by
      unfold flatReq
      rw [List.map_cons]
      rfl
    rw [hstep, kCount_append,
      kCount_eq_containsKey (hnd p (List.mem_cons_self _ _)) s,
      ih (fun q hq => hnd q (List.mem_cons_of_mem _ hq))]
    unfold positionsRequiring
    rw [List.filter_cons]
    by_cases hc : containsKey p.required_skills s = true
    · rw [if_pos hc, if_pos hc, List.length_cons]
      omega
    · rw [if_neg hc, if_neg hc]
      omega

theorem kTotal_flat (positions : List Position) (s : String) :
    kTotal (flatReq positions) s = totalRequiredLevel positions s := by
  induction positions with
  | nil => rfl
  | cons p rest ih =>
    have hstep : flatReq (p :: rest) = p.required_skills ++ flatReq rest := by
      unfold flatReq
      rw [List.map_cons]
      rfl
    rw [hstep, kTotal_append, ih]
    unfold totalRequiredLevel
    rw [List.map_cons, List.sum_cons]

theorem mem_trending {positions : List Position} {t : TrendingEntry}
    (ht : t ∈ get_trending_skills positions) :
    ∃ e ∈ demandFold positions, 0 < e.2.1 ∧ t = trendingEntryOf e := by
  unfold get_trending_skills at ht
  have hmem := (sortDescBy_perm _ _).mem_iff.mp (List.mem_of_mem_take ht)
  obtain ⟨e, he, rfl⟩ := List.mem_map.mp hmem
  have hf := List.mem_filter.mp he
  exact ⟨e, hf.1, by simpa using hf.2, rfl⟩

/-- First example position for the trending computation (requires `{python: 3}`). -/
def trendPosA : Position := { id := "tp1", title := "Backend A", required_skills := [("python", 3)] }

/-- Second example position (requires `{python: 3}`). -/
def trendPosB : Position := { id := "tp2", title := "Backend B", required_skills := [("python", 3)] }

/-- Third example position (requires `{python: 5}`). -/
def trendPosC : Position := { id := "tp3", title := "Backend C", required_skills := [("python", 5)] }

/-- Rounding the example average: `round(11/3, 1) = 3.7`. -/
theorem pyRound1_example : pyRound1 ((11 : ℤ) / ((3 : Nat) : ℚ)) = 37 / 10 := by
  have harg : ((11 : ℤ) : ℚ) / ((3 : Nat) : ℚ) * 10 = 110 / 3 := by norm_num
  unfold pyRound1 roundHalfEven
  rw [harg]
  have hfl : ⌊(110 : ℚ) / 3⌋ = 36 := by
    rw [Int.floor_eq_iff]
    norm_num
  rw [hfl, if_neg (by norm_num), round_eq]
  have hfl2 : ⌊(110 : ℚ) / 3 + 1 / 2⌋ = 37 := by
    rw [Int.floor_eq_iff]
    norm_num
  rw [hfl2]
  norm_num

/-- C9 (confirmed): `get_trending_skills` reports, per required skill, the
number of positions requiring it and the average required level rounded to
1 decimal, tags the trend "high" iff the demand count is ≥ 3, "medium" iff
it is 2, else "low", sorts descending by `(demand_count, average_level)`
and returns at most 10 entries; on positions requiring `{python: 3}` twice
and `{python: 5}` once it returns demand_count 3, average 3.7, trend
"high". -/
theorem trending_skills_spec :
    get_trending_skills [trendPosA, trendPosB, trendPosC] =
      [{ skill := "python", demand_count := 3, average_level := 37 / 10, trend := "high" }] ∧
    ∀ positions : List Position,
      (∀ p ∈ positions, (p.required_skills.map Prod.fst).Nodup) →
      (∀ t ∈ get_trending_skills positions,
        t.demand_count = positionsRequiring positions t.skill ∧
        t.average_level =
          pyRound1 ((totalRequiredLevel positions t.skill : ℚ) / (t.demand_count : ℚ)) ∧
        (t.trend = "high" ↔ 3 ≤ t.demand_count) ∧
        (t.trend = "medium" ↔ t.demand_count = 2) ∧
        (t.trend = "low" ↔ t.demand_count ≤ 1)) ∧
      (get_trending_skills positions).Pairwise
        (fun a b => b.demand_count < a.demand_count ∨
          (b.demand_count = a.demand_count ∧ b.average_level ≤ a.average_level)) ∧
      (get_trending_skills positions).length ≤ 10 := by
  refine ⟨?_, fun positions hnd => ⟨?_, ?_, ?_⟩⟩
  · have hraw : (demandFold [trendPosA, trendPosB, trendPosC]).filter (fun e => 0 < e.2.1) =
        [("python", 3, 11)] := by decide
    unfold get_trending_skills
    rw [hraw]
    rw [List.map_cons, List.map_nil]
    show List.take 10 [trendingEntryOf ("python", 3, 11)] = _
    rw [List.take_succ_cons, List.take_nil]
    unfold trendingEntryOf
    rw [pyRound1_example]
    rfl
  · intro t ht
    obtain ⟨e, he, hpos, rfl⟩ := mem_trending ht
    obtain ⟨hc, htot⟩ := demandFold_entry he
    have hcount : (trendingEntryOf e).demand_count = positionsRequiring positions e.1 := by
      show e.2.1 = _
      rw [hc, kCount_flat hnd]
    refine ⟨hcount, ?_, ?_, ?_, ?_⟩
    · show pyRound1 ((e.2.2 : ℚ) / (e.2.1 : ℚ)) = _
      rw [htot, kTotal_flat]
      rfl
    · show (if 3 ≤ e.2.1 then "high" else if 2 ≤ e.2.1 then "medium" else "low") = "high" ↔
        3 ≤ e.2.1
      by_cases h3 : 3 ≤ e.2.1
      · rw [if_pos h3]
        exact ⟨fun _ => h3, fun _ => rfl⟩
      · rw [if_neg h3]
        constructor
        · intro hc2
          by_cases h2 : 2 ≤ e.2.1
          · rw [if_pos h2] at hc2
            exact absurd hc2 (by decide)
          · rw [if_neg h2] at hc2
            exact absurd hc2 (by decide)
        · intro hc2
          omega
    · show (if 3 ≤ e.2.1 then "high" else if 2 ≤ e.2.1 then "medium" else "low") = "medium" ↔
        e.2.1 = 2
      rcases (by omega : 3 ≤ e.2.1 ∨ e.2.1 = 2 ∨ e.2.1 ≤ 1) with h | h | h
      · rw [if_pos h]
        exact ⟨fun hc2 => absurd hc2 (by decide), fun hc2 => by omega⟩
      · rw [if_neg (by omega), if_pos (by omega)]
        exact ⟨fun _ => h, fun _ => rfl⟩
      · rw [if_neg (by omega), if_neg (by omega)]
        exact ⟨fun hc2 => absurd hc2 (by decide), fun hc2 => by omega⟩
    · show (if 3 ≤ e.2.1 then "high" else if 2 ≤ e.2.1 then "medium" else "low") = "low" ↔
        e.2.1 ≤ 1
      rcases (by omega : 3 ≤ e.2.1 ∨ e.2.1 = 2 ∨ e.2.1 ≤ 1) with h | h | h
      · rw [if_pos h]
        exact ⟨fun hc2 => absurd hc2 (by decide), fun hc2 => by omega⟩
      · rw [if_neg (by omega), if_pos (by omega)]
        exact ⟨fun hc2 => absurd hc2 (by decide), fun hc2 => by omega⟩
      · rw [if_neg (by omega), if_neg (by omega)]
        exact ⟨fun _ => h, fun _ => rfl⟩
  · unfold get_trending_skills
    refine List.Pairwise.sublist (List.take_sublist _ _) ?_
    refine (sortDescBy_sorted _ _).imp ?_
    intro a b hab
    rw [Prod.Lex.le_iff] at hab
    dsimp only at hab
    rcases hab with h | ⟨h1, h2⟩
    · exact Or.inl (by exact_mod_cast h)
    · exact Or.inr ⟨by exact_mod_cast h1, h2⟩
  · unfold get_trending_skills
    rw [List.length_take]
    exact min_le_left _ _

/-- C9 witness: the general trending specification instantiated on the
three example positions (whose skill maps have distinct keys). -/
theorem trending_skills_spec_witness :
    (∀ t ∈ get_trending_skills [trendPosA, trendPosB, trendPosC],
      t.demand_count = positionsRequiring [trendPosA, trendPosB, trendPosC] t.skill ∧
      t.average_level = pyRound1
        ((totalRequiredLevel [trendPosA, trendPosB, trendPosC] t.skill : ℚ) /
          (t.demand_count : ℚ)) ∧
      (t.trend = "high" ↔ 3 ≤ t.demand_count) ∧
      (t.trend = "medium" ↔ t.demand_count = 2) ∧
      (t.trend = "low" ↔ t.demand_count ≤ 1)) ∧
    (get_trending_skills [trendPosA, trendPosB, trendPosC]).Pairwise
      (fun a b => b.demand_count < a.demand_count ∨
        (b.demand_count = a.demand_count ∧ b.average_level ≤ a.average_level)) ∧
    (get_trending_skills [trendPosA, trendPosB, trendPosC]).length ≤ 10 :=
  trending_skills_spec.2 [trendPosA, trendPosB, trendPosC] (by decide)

end AMatch
